import Mathlib

/-!
Verification of the FraudShield risk pipeline (evaluator and decisioner
services) against its specification.

The development shallowly embeds the TypeScript sources:

* JavaScript runtime values that flow through the rule engines are modelled
  by the inductive type `Value` (JSON-style data: null, booleans, numbers,
  strings, arrays, objects).  `undefined` is modelled as `Option.none` at
  use sites (a field extraction returns `Option Value`).
* JS numbers are modelled as rationals (`ℚ`); the sources only add,
  compare and clamp, so no floating-point behaviour is relevant.
* The decisioner condition evaluator comes from
  `apps/decisioner/src/services/decisionService.ts`
  (`matchesCondition` / `getFieldValue` / `matchesRule` /
  `applyCustomRules` / `makeDecision` / `getRiskLevel` /
  `createDecision` / `getMerchantRules`), the evaluator scoring engine from
  `apps/evaluator/src/services/evaluationService.ts`
  (`calculateRiskScore` / `evaluateRule` / `getNestedValue` /
  `getVelocityData`), and the consumer loop from
  `apps/decisioner/src/services/eventConsumer.ts`.
-/

namespace FS

/-- JavaScript runtime values (JSON data model).  Arrays and objects are
structural here; strict equality on them is modelled separately (see
`jsEq`). -/
inductive Value where
  | vnull : Value
  | vbool (b : Bool) : Value
  | vnum (q : ℚ) : Value
  | vstr (s : String) : Value
  | varr (xs : List Value) : Value
  | vobj (fields : List (String × Value)) : Value

/-- JS strict equality `===` between two defined values.  Primitives compare
structurally; arrays and objects compare by reference, and the two operands
compared by the rule engines (a value extracted from a freshly parsed record
versus a value from a separately stored rule) are never the same reference,
so reference equality is modelled as `false`. -/
def jsEq : Value → Value → Bool
  | Value.vnull, Value.vnull => true
  | Value.vbool a, Value.vbool b => a == b
  | Value.vnum a, Value.vnum b => a == b
  | Value.vstr a, Value.vstr b => a == b
  | _, _ => false

/-- JS `Array.prototype.includes` (SameValueZero, which coincides with
`jsEq` for the values occurring here). -/
def arrIncludes (xs : List Value) (v : Value) : Bool :=
  xs.any (fun x => jsEq x v)

/-- Boolean contiguous-sublist check used to model substring search. -/
def isInfixB (needle : List Char) : List Char → Bool
  | [] => needle.isEmpty
  | h :: t => needle.isPrefixOf (h :: t) || isInfixB needle t

/-- JS `String.prototype.includes hay.includes(v)`.  Both services call it
with string-typed rule values; the implicit ToString coercion JS would apply
to a non-string argument is not modelled (no result below depends on it). -/
def strIncludes (hay : String) (v : Value) : Bool :=
  match v with
  | Value.vstr needle => isInfixB needle.toList hay.toList
  | _ => false

/-- JS strict equality where the left operand may be `undefined`
(`undefined === v` is false for every defined `v`). -/
def optEq (fv : Option Value) (v : Value) : Bool :=
  match fv with
  | some w => jsEq w v
  | none => false

/-- JS `typeof fieldValue === number && fieldValue OP value`: the comparison
used by the `gt`/`gte`/`lt`/`lte` operators.  A non-number right-hand side
is modelled as comparing `false` (the JS coercion of strings to numbers is
not modelled; no result below depends on it). -/
def numCmp (cmp : ℚ → ℚ → Prop) [DecidableRel cmp] (fv : Option Value) (v : Value) : Bool :=
  match fv, v with
  | some (Value.vnum a), Value.vnum b => decide (cmp a b)
  | _, _ => false

/-- Membership of a possibly-undefined field value in a rule-value array
(`condition.value.includes(fieldValue)`); `undefined` is never an element of
a parsed JSON array. -/
def arrIncludesOpt (xs : List Value) (fv : Option Value) : Bool :=
  match fv with
  | some v => arrIncludes xs v
  | none => false

/-- Property access `value[part]` on a JS value, for the dot-path walkers.
Objects look up their (first) matching key; arrays expose canonical numeric
indices and `length`; strings expose `length` and their characters; property
access on other primitives yields `undefined`.  (Inherited methods are not
data and are not modelled.) -/
def jsIndex (v : Value) (key : String) : Option Value :=
  match v with
  | Value.vobj fields => fields.lookup key
  | Value.varr xs =>
    if key = "length" then some (Value.vnum xs.length)
    else
      match key.toNat? with
      | some i => if toString i = key then xs[i]? else none
      | none => none
  | Value.vstr s =>
    if key = "length" then some (Value.vnum s.length)
    else
      match key.toNat? with
      | some i =>
        if toString i = key then (s.toList[i]?).map (fun c => Value.vstr (String.mk [c])) else none
      | none => none
  | _ => none

/-- Is the JS value an `object` for `typeof` purposes (objects and arrays;
`null` is excluded separately before the check in the source)? -/
def isJsObject : Value → Bool
  | Value.vobj _ => true
  | Value.varr _ => true
  | _ => false

/-- Accumulator loop for `splitDot`. -/
def splitDotAux : List Char → List Char → List String
  | [], acc => [String.mk acc.reverse]
  | c :: cs, acc =>
    if c = '.' then String.mk acc.reverse :: splitDotAux cs []
    else splitDotAux cs (c :: acc)

/-- JS `field.split(.)`: split a string on the dot separator (an empty
string yields one empty part, a trailing dot an empty last part, exactly as
in JS). -/
def splitDot (s : String) : List String :=
  splitDotAux s.toList []

/-- Loop of the decisioner `DecisionService.getFieldValue`: for each path
part, if the current value is `null`, `undefined`, or not an object, return
`undefined`; otherwise index into it. -/
def getFieldValueParts : Option Value → List String → Option Value
  | v, [] => v
  | v, part :: rest =>
    match v with
    | none => none
    | some Value.vnull => none
    | some w => if isJsObject w then getFieldValueParts (jsIndex w part) rest else none

/-- Decisioner `DecisionService.getFieldValue`: dot-path field extraction
over a record (`field.split(.)` then the guarded walk). -/
def getFieldValue (record : Value) (field : String) : Option Value :=
  getFieldValueParts (some record) (splitDot field)

/-- Loop of the evaluator `EvaluationService.getNestedValue`: for each key,
if the current value is `null` or `undefined` return `undefined`, otherwise
index into it (no `typeof` guard, unlike the decisioner). -/
def getNestedValueKeys : Option Value → List String → Option Value
  | v, [] => v
  | v, key :: rest =>
    match v with
    | none => none
    | some Value.vnull => none
    | some w => getNestedValueKeys (jsIndex w key) rest

/-- Evaluator `EvaluationService.getNestedValue`: dot-path extraction. -/
def getNestedValue (record : Value) (path : String) : Option Value :=
  getNestedValueKeys (some record) (splitDot path)

/-- The ten rule-condition operators shared by both services.  The `in`
operator is spelled `opIn` because `in` is a Lean keyword. -/
inductive Op where
  | eq | neq | gt | gte | lt | lte | contains | not_contains | opIn | not_in
deriving DecidableEq

/-- A rule condition `{field, operator, value}` (both services use the same
shape; `value : any` is a parsed JSON value). -/
structure RuleCondition where
  field : String
  operator : Op
  value : Value

/-- Operator dispatch of the decisioner `DecisionService.matchesCondition`,
applied to an already-extracted field value. -/
def matchesConditionOp (fv : Option Value) (op : Op) (v : Value) : Bool :=
  match op with
  | Op.eq => optEq fv v
  | Op.neq => !optEq fv v
  | Op.gt => numCmp (fun a b => a > b) fv v
  | Op.gte => numCmp (fun a b => a ≥ b) fv v
  | Op.lt => numCmp (fun a b => a < b) fv v
  | Op.lte => numCmp (fun a b => a ≤ b) fv v
  | Op.contains =>
    match fv with
    | some (Value.varr xs) => arrIncludes xs v
    | some (Value.vstr s) => strIncludes s v
    | _ => false
  | Op.not_contains =>
    match fv with
    | some (Value.varr xs) => !arrIncludes xs v
    | some (Value.vstr s) => !strIncludes s v
    | _ => true
  | Op.opIn =>
    match v with
    | Value.varr xs => arrIncludesOpt xs fv
    | _ => false
  | Op.not_in =>
    match v with
    | Value.varr xs => !arrIncludesOpt xs fv
    | _ => true

/-- Decisioner `DecisionService.matchesCondition` on a record value. -/
def matchesCondition (record : Value) (c : RuleCondition) : Bool :=
  matchesConditionOp (getFieldValue record c.field) c.operator c.value

/-- Operator dispatch of the per-condition check inside the evaluator
`EvaluationService.evaluateRule` (its `switch (condition.operator)`). -/
def evalConditionOp (fv : Option Value) (op : Op) (v : Value) : Bool :=
  match op with
  | Op.eq => optEq fv v
  | Op.neq => !optEq fv v
  | Op.gt => numCmp (fun a b => a > b) fv v
  | Op.gte => numCmp (fun a b => a ≥ b) fv v
  | Op.lt => numCmp (fun a b => a < b) fv v
  | Op.lte => numCmp (fun a b => a ≤ b) fv v
  | Op.contains =>
    match fv with
    | some (Value.vstr s) => strIncludes s v
    | _ => false
  | Op.not_contains =>
    match fv with
    | some (Value.vstr s) => !strIncludes s v
    | _ => false
  | Op.opIn =>
    match v with
    | Value.varr xs => arrIncludesOpt xs fv
    | _ => false
  | Op.not_in =>
    match v with
    | Value.varr xs => !arrIncludesOpt xs fv
    | _ => false

/-- The evaluator per-condition check (extraction via `getNestedValue`, then
the operator dispatch). -/
def evalCondition (record : Value) (c : RuleCondition) : Bool :=
  evalConditionOp (getNestedValue record c.field) c.operator c.value

/-! ## Decisioner data model (`apps/decisioner/src/types.ts`) -/

/-- Decision actions a custom rule or the threshold logic can produce. -/
inductive Action where
  | approve | review | reject
deriving DecidableEq

/-- A decisioner custom rule. -/
structure Rule where
  id : String
  name : String
  description : Option String
  conditions : List RuleCondition
  action : Action
  priority : ℚ
  isEnabled : Bool

/-- Merchant rules record (decisioner). -/
structure MerchantRules where
  merchantId : String
  riskThreshold : ℚ
  highRiskThreshold : ℚ
  automaticReject : Bool
  manualReviewThreshold : Option ℚ
  customRules : Option (List Rule)
  updatedAt : ℤ

/-- A risk score as consumed by the decisioner. -/
structure RiskScore where
  id : String
  evaluationId : String
  sessionId : String
  merchantId : String
  visitorId : String
  score : ℚ
  isFraud : Bool
  riskFactors : List String
  timestamp : ℤ

/-- Risk levels (`low | medium | high | critical`). -/
inductive RiskLevel where
  | low | medium | high | critical
deriving DecidableEq

/-- The final decision object built by `createDecision`. -/
structure TransactionDecision where
  id : String
  evaluationId : String
  merchantId : String
  decision : Action
  riskScore : ℚ
  riskLevel : RiskLevel
  reasoning : List String
  createdAt : ℤ

/-- The JS object form of a `RiskScore`, as seen by the dot-path field
extraction in `matchesCondition`. -/
def riskScoreToValue (rs : RiskScore) : Value :=
  Value.vobj
    [ ("id", Value.vstr rs.id)
    , ("evaluationId", Value.vstr rs.evaluationId)
    , ("sessionId", Value.vstr rs.sessionId)
    , ("merchantId", Value.vstr rs.merchantId)
    , ("visitorId", Value.vstr rs.visitorId)
    , ("score", Value.vnum rs.score)
    , ("isFraud", Value.vbool rs.isFraud)
    , ("riskFactors", Value.varr (rs.riskFactors.map Value.vstr))
    , ("timestamp", Value.vnum rs.timestamp) ]

/-- Decisioner `DecisionService.matchesRule`: all conditions must match. -/
def matchesRule (rs : RiskScore) (r : Rule) : Bool :=
  r.conditions.all (fun c => matchesCondition (riskScoreToValue rs) c)

/-- Stable descending-priority insertion used to model
`customRules.sort((a, b) => b.priority - a.priority)`.  ECMAScript
`Array.prototype.sort` is specified to be stable, and for the total preorder
induced by this comparator the stable sorted permutation is unique, so any
stable sorting algorithm is a faithful embedding; an element is inserted
before the first already-placed element whose priority does not exceed
its own, which preserves the original order of equal priorities. -/
def insertDesc (x : Rule) : List Rule → List Rule
  | [] => [x]
  | y :: ys => if y.priority ≤ x.priority then x :: y :: ys else y :: insertDesc x ys

/-- Stable sort by descending `priority` (see `insertDesc`). -/
def sortDesc : List Rule → List Rule
  | [] => []
  | x :: xs => insertDesc x (sortDesc xs)

/-- JS truthiness of an optional string (`undefined` and the empty string
are falsy). -/
def jsTruthyStr (s : Option String) : Bool :=
  match s with
  | some t => t ≠ ""
  | none => false

/-- The reason string attached to a matched custom rule
(`Rule NAME applied: description-or-id`; `description || id` falls back to
the id when the description is absent or empty/falsy). -/
def ruleReason (r : Rule) : String :=
  "Rule \x27" ++ r.name ++ "\x27 applied: " ++
    (match r.description with
     | some d => if d = "" then r.id else d
     | none => r.id)

/-- Result of a matched custom rule inside `applyCustomRules`. -/
structure CustomRuleResult where
  decision : Action
  reason : String
deriving DecidableEq

/-- Decisioner `DecisionService.applyCustomRules`: bail out on a missing or
empty rule list; otherwise filter to enabled rules, stable-sort by
descending priority, and return the action and reason of the first rule all
of whose conditions match. -/
def applyCustomRules (rs : RiskScore) (mr : MerchantRules) : Option CustomRuleResult :=
  match mr.customRules with
  | none => none
  | some rules =>
    if rules.length = 0 then none
    else
      match (sortDesc (rules.filter (fun r => r.isEnabled))).find? (fun r => matchesRule rs r) with
      | some r => some { decision := r.action, reason := ruleReason r }
      | none => none

/-- Decisioner `DecisionService.getRiskLevel`, verbatim from the source: the
score is compared against the literals `0.9`, `0.7` and `0.4`. -/
def getRiskLevel (score : ℚ) : RiskLevel :=
  if score ≥ 9/10 then RiskLevel.critical
  else if score ≥ 7/10 then RiskLevel.high
  else if score ≥ 4/10 then RiskLevel.medium
  else RiskLevel.low

/-- Decisioner `DecisionService.createDecision` (the `reasoning` argument is
already in array form here; the source wraps a lone string). -/
def createDecision (rs : RiskScore) (decisionId : String) (decision : Action)
    (reasoning : List String) (now : ℤ) : TransactionDecision :=
  { id := decisionId
  , evaluationId := rs.evaluationId
  , merchantId := rs.merchantId
  , decision := decision
  , riskScore := rs.score
  , riskLevel := getRiskLevel rs.score
  , reasoning := reasoning
  , createdAt := now }

/-- Decisioner `config.rules.defaultRiskThreshold`
(`parseFloat(process.env.DEFAULT_RISK_THRESHOLD || 0.7)` with the
environment variable unset, i.e. the hardcoded default `0.7`). -/
def defaultRiskThreshold : ℚ := 7/10

/-- Decisioner `config.rules.highRiskThreshold` (hardcoded default `0.9`). -/
def highRiskThreshold : ℚ := 9/10

/-- Decisioner `DecisionService.getMerchantRules`: merchant-specific record
from the cache, else the `default` record with the merchant id substituted,
else the hardcoded baseline built from the config defaults.  The Redis
lookup is modelled by the `cache` map and `Date.now()` by `now`. -/
def getMerchantRules (cache : String → Option MerchantRules) (now : ℤ)
    (merchantId : String) : MerchantRules :=
  match cache merchantId with
  | some mr => mr
  | none =>
    match cache ("default") with
    | some d => { d with merchantId := merchantId }
    | none =>
      { merchantId := merchantId
      , riskThreshold := defaultRiskThreshold
      , highRiskThreshold := highRiskThreshold
      , automaticReject := true
      , manualReviewThreshold := none
      , customRules := none
      , updatedAt := now }

/-- Decisioner `DecisionService.makeDecision`: custom rules first (their
result short-circuits), otherwise the threshold ladder with its reasoning
strings (numeric formatting inside the strings is the Lean rendering of the
rational, which no claim depends on). -/
def makeDecision (cache : String → Option MerchantRules) (now : ℤ)
    (rs : RiskScore) (decisionId : String) : TransactionDecision :=
  let mr := getMerchantRules cache now rs.merchantId
  match applyCustomRules rs mr with
  | some res => createDecision rs decisionId res.decision [res.reason] now
  | none =>
    let base :=
      if rs.score ≥ mr.highRiskThreshold then
        ( if mr.automaticReject then Action.reject else Action.review
        , "Risk score " ++ toString rs.score ++ " exceeds high risk threshold " ++
            toString mr.highRiskThreshold )
      else if rs.score ≥ mr.riskThreshold then
        ( Action.review
        , "Risk score " ++ toString rs.score ++ " exceeds risk threshold " ++
            toString mr.riskThreshold )
      else
        ( Action.approve
        , "Risk score " ++ toString rs.score ++ " below risk threshold " ++
            toString mr.riskThreshold )
    let reasoning :=
      if rs.riskFactors.length > 0 then
        [base.2, "Risk factors: " ++ String.intercalate (", ") rs.riskFactors]
      else [base.2]
    createDecision rs decisionId base.1 reasoning now

/-! ## Evaluator data model (`apps/evaluator/src/types.ts`) -/

/-- Device fingerprint payload fields used by the scoring engine. -/
structure FingerprintData where
  visitorId : String
  confidence : Option ℚ
  incognito : Option Bool

/-- GeoIP enrichment result fields used by the scoring engine. -/
structure GeoData where
  country : Option String
  city : Option String

/-- Velocity counters attached to an enriched event. -/
structure VelocityData where
  sessionCount24h : Option ℚ
  ipSessionCount24h : Option ℚ
  deviceSessionCount24h : Option ℚ
  lastSeenTimestamp : Option ℚ

/-- The fields of an enriched event that the scoring engine reads. -/
structure EnrichedEvent where
  sessionId : String
  merchantId : String
  ipAddress : String
  evaluationId : Option String
  fingerprintData : FingerprintData
  geoData : Option GeoData
  velocityData : Option VelocityData

/-- An evaluator merchant rule (`isActive`, additive `riskScoreAdjustment`;
its `action` string is not read by the scoring engine). -/
structure ERule where
  id : String
  merchantId : String
  name : String
  description : Option String
  conditions : List RuleCondition
  action : String
  riskScoreAdjustment : ℚ
  isActive : Bool

/-- Evaluator merchant settings. -/
structure MerchantSettings where
  riskThreshold : ℚ
  enableCaptcha : Bool
  captchaThreshold : ℚ
  ipAnonymization : Bool

/-- JS truthiness of an optional number (`undefined`, `0` falsy). -/
def jsTruthyNum (q : Option ℚ) : Bool :=
  match q with
  | some n => n ≠ 0
  | none => false

/-- JS truthiness of an optional boolean (`undefined`, `false` falsy). -/
def jsTruthyBool (b : Option Bool) : Bool :=
  match b with
  | some t => t
  | none => false

/-- The JS object form of an enriched event, as seen by the dot-path
extraction in `evaluateRule` (optional fields absent when `undefined`). -/
def eventToValue (ev : EnrichedEvent) : Value :=
  Value.vobj
    ([ ("sessionId", Value.vstr ev.sessionId)
     , ("merchantId", Value.vstr ev.merchantId)
     , ("ipAddress", Value.vstr ev.ipAddress) ]
     ++ (match ev.evaluationId with
         | some e => [("evaluationId", Value.vstr e)]
         | none => [])
     ++ [ ("fingerprintData", Value.vobj
            ([("visitorId", Value.vstr ev.fingerprintData.visitorId)]
             ++ (match ev.fingerprintData.confidence with
                 | some c => [("confidence", Value.vnum c)]
                 | none => [])
             ++ (match ev.fingerprintData.incognito with
                 | some b => [("incognito", Value.vbool b)]
                 | none => []))) ]
     ++ (match ev.geoData with
         | some g => [("geoData", Value.vobj
             ((match g.country with
               | some c => [("country", Value.vstr c)]
               | none => [])
              ++ (match g.city with
                  | some c => [("city", Value.vstr c)]
                  | none => [])))]
         | none => [])
     ++ (match ev.velocityData with
         | some v => [("velocityData", Value.vobj
             ((match v.sessionCount24h with
               | some n => [("sessionCount24h", Value.vnum n)]
               | none => [])
              ++ (match v.ipSessionCount24h with
                  | some n => [("ipSessionCount24h", Value.vnum n)]
                  | none => [])
              ++ (match v.deviceSessionCount24h with
                  | some n => [("deviceSessionCount24h", Value.vnum n)]
                  | none => [])
              ++ (match v.lastSeenTimestamp with
                  | some n => [("lastSeenTimestamp", Value.vnum n)]
                  | none => [])))]
         | none => []))

/-- Evaluator `EvaluationService.evaluateRule`: all conditions must match
(AND semantics).  The surrounding try/catch of the source has no failing
operation in this pure embedding. -/
def evaluateRule (r : ERule) (ev : Value) : Bool :=
  r.conditions.all (fun c => evalCondition ev c)

/-- The hardcoded high-risk country list of `calculateRiskScore`. -/
def highRiskCountries : List String := ["RU", "NG", "BR", "VN"]

/-- Score accumulator: running score and risk-factor tags in push order. -/
abbrev RiskAcc := ℚ × List String

/-- Scoring step 1: device fingerprint confidence
(`confidence !== undefined`, then the `0.3` / `0.7` bands). -/
def stepConfidence (fp : FingerprintData) (acc : RiskAcc) : RiskAcc :=
  match fp.confidence with
  | some c =>
    if c < 3/10 then (acc.1 + 30, acc.2 ++ ["low_device_confidence"])
    else if c < 7/10 then (acc.1 + 10, acc.2 ++ ["medium_device_confidence"])
    else acc
  | none => acc

/-- Scoring step 2: incognito mode (truthiness of `fingerprintData.incognito`). -/
def stepIncognito (fp : FingerprintData) (acc : RiskAcc) : RiskAcc :=
  if jsTruthyBool fp.incognito then (acc.1 + 15, acc.2 ++ ["incognito_mode"])
  else acc

/-- Scoring step 3: location risk (`if (event.geoData?.country)`, then
membership in `highRiskCountries`). -/
def stepGeo (ev : EnrichedEvent) (acc : RiskAcc) : RiskAcc :=
  if jsTruthyStr (ev.geoData.bind (fun g => g.country)) then
    match ev.geoData.bind (fun g => g.country) with
    | some c =>
      if highRiskCountries.contains c then (acc.1 + 20, acc.2 ++ ["high_risk_country"])
      else acc
    | none => acc
  else acc

/-- Scoring step 4: velocity checks (`count && count > 10`, `count && count > 20`). -/
def stepVelocity (ev : EnrichedEvent) (acc : RiskAcc) : RiskAcc :=
  match ev.velocityData with
  | some v =>
    let acc1 :=
      if jsTruthyNum v.sessionCount24h ∧ (v.sessionCount24h.getD 0) > 10 then
        (acc.1 + 25, acc.2 ++ ["high_session_velocity"])
      else acc
    if jsTruthyNum v.ipSessionCount24h ∧ (v.ipSessionCount24h.getD 0) > 20 then
      (acc1.1 + 30, acc1.2 ++ ["high_ip_velocity"])
    else acc1
  | none => acc

/-- Scoring step 5: merchant rules (`rules.forEach`, active and matching
rules add their `riskScoreAdjustment` and a `rule_ID` tag). -/
def stepRules (rules : List ERule) (ev : EnrichedEvent) (acc : RiskAcc) : RiskAcc :=
  rules.foldl
    (fun a r =>
      if r.isActive && evaluateRule r (eventToValue ev) then
        (a.1 + r.riskScoreAdjustment, a.2 ++ ["rule_" ++ r.id])
      else a)
    acc

/-- The sequential scoring body of `calculateRiskScore` (statement order of
the source). -/
def calcScoreFactors (ev : EnrichedEvent) (rules : List ERule) : RiskAcc :=
  stepRules rules ev
    (stepVelocity ev
      (stepGeo ev
        (stepIncognito ev.fingerprintData
          (stepConfidence ev.fingerprintData (0, [])))))

/-- The clamp `Math.max(0, Math.min(100, score))`. -/
def clampScore (s : ℚ) : ℚ := max 0 (min 100 s)

/-- The evaluation id of the produced risk score
(`event.evaluationId || uuidv4()`; an absent or empty id falls back to a
fresh uuid, supplied here as `uuid2`). -/
def chosenEvaluationId (ev : EnrichedEvent) (uuid2 : String) : String :=
  match ev.evaluationId with
  | some e => if e = "" then uuid2 else e
  | none => uuid2

/-- The risk score built on the success path of `calculateRiskScore`. -/
def riskScoreOk (ev : EnrichedEvent) (settings : MerchantSettings)
    (rules : List ERule) (uuid1 uuid2 : String) (now : ℤ) : RiskScore :=
  let acc := calcScoreFactors ev rules
  let score := clampScore acc.1
  { id := uuid1
  , evaluationId := chosenEvaluationId ev uuid2
  , sessionId := ev.sessionId
  , merchantId := ev.merchantId
  , visitorId := ev.fingerprintData.visitorId
  , score := score
  , isFraud := decide (score ≥ settings.riskThreshold)
  , riskFactors := acc.2
  , timestamp := now }

/-- The fallback risk score built by the catch branch of
`calculateRiskScore`: score `0`, single factor `calculation_error`,
`isFraud` false. -/
def riskScoreFallback (ev : EnrichedEvent) (uuid1 uuid2 : String) (now : ℤ) : RiskScore :=
  { id := uuid1
  , evaluationId := chosenEvaluationId ev uuid2
  , sessionId := ev.sessionId
  , merchantId := ev.merchantId
  , visitorId := ev.fingerprintData.visitorId
  , score := 0
  , isFraud := false
  , riskFactors := ["calculation_error"]
  , timestamp := now }

/-- Evaluator `EvaluationService.calculateRiskScore`.  The settings and
rules lookups absorb their own errors inside the source (each returns a
default on failure), so in this typed embedding the throwing operation
inside the try block is the Kafka publish `eventProducer.produceEvent`,
passed as `publish`; the catch branch returns the fallback score instead of
propagating the error. -/
def calculateRiskScore (ev : EnrichedEvent) (settings : MerchantSettings)
    (rules : List ERule) (uuid1 uuid2 : String) (now : ℤ)
    (publish : Except String Unit) : RiskScore :=
  match publish with
  | Except.ok _ => riskScoreOk ev settings rules uuid1 uuid2 now
  | Except.error _ => riskScoreFallback ev uuid1 uuid2 now

/-- Specification contribution: device confidence below `0.3` adds `30`
(`low_device_confidence`), between `0.3` and `0.7` adds `10`
(`medium_device_confidence`). -/
def confContrib (fp : FingerprintData) : List (ℚ × String) :=
  match fp.confidence with
  | some c =>
    if c < 3/10 then [((30 : ℚ), "low_device_confidence")]
    else if c < 7/10 then [((10 : ℚ), "medium_device_confidence")]
    else []
  | none => []

/-- Specification contribution: incognito mode adds `15`. -/
def incogContrib (fp : FingerprintData) : List (ℚ × String) :=
  if fp.incognito = some true then [((15 : ℚ), "incognito_mode")] else []

/-- Specification contribution: a geo country in the high-risk set adds `20`. -/
def geoContrib (ev : EnrichedEvent) : List (ℚ × String) :=
  match ev.geoData.bind (fun g => g.country) with
  | some c => if highRiskCountries.contains c then [((20 : ℚ), "high_risk_country")] else []
  | none => []

/-- Specification contribution: session velocity count above `10` adds `25`. -/
def sessionVelContrib (ev : EnrichedEvent) : List (ℚ × String) :=
  match ev.velocityData.bind (fun v => v.sessionCount24h) with
  | some n => if n > 10 then [((25 : ℚ), "high_session_velocity")] else []
  | none => []

/-- Specification contribution: IP velocity count above `20` adds `30`. -/
def ipVelContrib (ev : EnrichedEvent) : List (ℚ × String) :=
  match ev.velocityData.bind (fun v => v.ipSessionCount24h) with
  | some n => if n > 20 then [((30 : ℚ), "high_ip_velocity")] else []
  | none => []

/-- Specification contribution: each enabled (active) matching custom rule
adds its `riskScoreAdjustment` under the tag `rule_ID`. -/
def rulesContrib (rules : List ERule) (ev : EnrichedEvent) : List (ℚ × String) :=
  (rules.filter (fun r => r.isActive && evaluateRule r (eventToValue ev))).map
    (fun r => (r.riskScoreAdjustment, "rule_" ++ r.id))

/-- The additive scoring model as the specification states it: an ordered
list of `(increment, risk-factor tag)` contributions. -/
def specContributions (ev : EnrichedEvent) (rules : List ERule) : List (ℚ × String) :=
  confContrib ev.fingerprintData ++ incogContrib ev.fingerprintData ++
    geoContrib ev ++ sessionVelContrib ev ++ ipVelContrib ev ++ rulesContrib rules ev

/-! ## Velocity counters (`EvaluationService.getVelocityData`) -/

/-- Digit-accumulator loop for `parseNat`. -/
def parseNatChars : List Char → ℕ → Option ℕ
  | [], acc => some acc
  | c :: cs, acc =>
    if c.isDigit then parseNatChars cs (acc * 10 + (c.toNat - 48)) else none

/-- Parse a decimal natural number from a string (the integer parse that
Redis `INCR` applies to a stored counter value). -/
def parseNat (s : String) : Option ℕ :=
  match s.toList with
  | [] => none
  | l => parseNatChars l 0

/-- Redis keyspace state: latest written string value per key, plus the
latest TTL (seconds) per key when one was ever set.  Writes cons onto the
association lists; `List.lookup` returns the most recent write. -/
structure RedisState where
  store : List (String × String)
  expiries : List (String × ℕ)

/-- The empty Redis state. -/
def RedisState.empty : RedisState := { store := [], expiries := [] }

/-- Redis `GET` (`getRedisValue`). -/
def redisGet (st : RedisState) (k : String) : Option String :=
  st.store.lookup k

/-- Redis `INCR` (`incrRedisValue`): parse the current value as an integer
(absent counts as `0`; the counters written here are always integer
strings), add one, store it back, and return the new value. -/
def redisIncr (st : RedisState) (k : String) : ℕ × RedisState :=
  let n := match st.store.lookup k with
    | some s => (parseNat s).getD 0
    | none => 0
  (n + 1, { st with store := (k, toString (n + 1)) :: st.store })

/-- `setRedisValue` with an expiry (`redis.setex`): writes the value and
sets the TTL. -/
def redisSetEx (st : RedisState) (k v : String) (ttl : ℕ) : RedisState :=
  { store := (k, v) :: st.store, expiries := (k, ttl) :: st.expiries }

/-- The key of the first velocity counter
(`velocity:merchant:MERCHANTID:sessions`): note that it depends only on the
merchant id, not on the session id. -/
def merchantSessionKey (ev : EnrichedEvent) : String :=
  "velocity:merchant:" ++ ev.merchantId ++ ":sessions"

/-- The key of the per-IP velocity counter. -/
def ipSessionKey (ev : EnrichedEvent) : String :=
  "velocity:ip:" ++ ev.ipAddress ++ ":sessions"

/-- The key of the per-device velocity counter. -/
def deviceSessionKey (ev : EnrichedEvent) : String :=
  "velocity:device:" ++ ev.fingerprintData.visitorId ++ ":sessions"

/-- The key of the per-device last-seen timestamp. -/
def deviceLastSeenKey (ev : EnrichedEvent) : String :=
  "velocity:device:" ++ ev.fingerprintData.visitorId ++ ":lastSeen"

/-- The 24-hour TTL in seconds. -/
def velocityTtl : ℕ := 24 * 60 * 60

/-- Evaluator `EvaluationService.getVelocityData` over the Redis state:
three `INCR`s, each followed by a conditional `setex` when the
post-increment count equals `1`, then the last-seen read/write. -/
def getVelocityData (ev : EnrichedEvent) (now : ℤ) (st : RedisState) :
    VelocityData × RedisState :=
  let r1 := redisIncr st (merchantSessionKey ev)
  let st1 := if r1.1 = 1 then redisSetEx r1.2 (merchantSessionKey ev) ("1") velocityTtl else r1.2
  let r2 := redisIncr st1 (ipSessionKey ev)
  let st2 := if r2.1 = 1 then redisSetEx r2.2 (ipSessionKey ev) ("1") velocityTtl else r2.2
  let r3 := redisIncr st2 (deviceSessionKey ev)
  let st3 := if r3.1 = 1 then redisSetEx r3.2 (deviceSessionKey ev) ("1") velocityTtl else r3.2
  let lastSeen := (redisGet st3 (deviceLastSeenKey ev)).bind
    (fun s => (s.toInt?).map (fun i => (i : ℚ)))
  let st4 := redisSetEx st3 (deviceLastSeenKey ev) (toString now) velocityTtl
  ( { sessionCount24h := some (r1.1 : ℚ)
    , ipSessionCount24h := some (r2.1 : ℚ)
    , deviceSessionCount24h := some (r3.1 : ℚ)
    , lastSeenTimestamp := lastSeen }
  , st4 )

/-! ## Consumer loop (`apps/decisioner/src/services/eventConsumer.ts`) -/

/-- A Kafka message as seen by the consumer: the JSON parse outcome of its
value (`none` when `JSON.parse` throws), plus the outcomes the decision
store and publish would have for it (`processRiskScore` calls
`redisService.storeDecision` then `eventProducer.publishDecision`). -/
structure KMessage where
  parsed : Option RiskScore
  storeOutcome : Except String Unit
  publishOutcome : Except String Unit

/-- `EventConsumer.parseMessage`: parse, then reject records missing a
truthy `id`, `evaluationId` or `merchantId`. -/
def parseMessage (m : KMessage) : Option RiskScore :=
  match m.parsed with
  | none => none
  | some rs =>
    if rs.id = "" ∨ rs.evaluationId = "" ∨ rs.merchantId = "" then none else some rs

/-- The try block of `DecisionService.processRiskScore`: make and store the
decision, then publish it (either effect may fail). -/
def processRiskScoreTry (m : KMessage) : Except String Unit := do
  _ ← m.storeOutcome
  m.publishOutcome

/-- `DecisionService.processRiskScore`: the try block wrapped in a catch
that only logs, so the call always returns normally. -/
def processRiskScore (m : KMessage) : Unit :=
  match processRiskScoreTry m with
  | Except.ok _ => ()
  | Except.error _ => ()

/-- `EventConsumer.processMessages`: per message, a try/catch around parse
(skip on `null`) and `processRiskScore`; since both absorb their own
errors, the loop body never throws and the whole handler resolves. -/
def processMessages : List KMessage → Except String Unit
  | [] => Except.ok ()
  | m :: rest =>
    let _ : Unit :=
      match parseMessage m with
      | none => ()
      | some _ => processRiskScore m
    processMessages rest

/-- The consume batch size (`consumer.consume(100, ...)`). -/
def batchSize : ℕ := 100

/-- State of the consumer poll loop over a single partition: the messages
not yet committed (in offset order), the number of committed offsets, and
the running flag. -/
structure ConsumerState where
  pending : List KMessage
  committed : ℕ
  running : Bool

/-- One successful-consume iteration of `EventConsumer.poll`: take a batch,
and if it is nonempty run `processMessages`; the offsets are committed
(`consumer.commit()`) only when the handler resolves, otherwise the state
is unchanged and the batch will be redelivered.  The loop reschedules
itself in either case. -/
def pollStep (s : ConsumerState) : ConsumerState :=
  if s.running = false then s
  else
    let batch := s.pending.take batchSize
    if batch.isEmpty then s
    else
      match processMessages batch with
      | Except.ok _ =>
        { pending := s.pending.drop batchSize
        , committed := s.committed + batch.length
        , running := s.running }
      | Except.error _ => s

/-- Reachability in the consumer loop: iterated `pollStep`. -/
inductive ConsumerReachable (init : ConsumerState) : ConsumerState → Prop where
  | refl : ConsumerReachable init init
  | step {s : ConsumerState} :
      ConsumerReachable init s → ConsumerReachable init (pollStep s)

/-! ## Specification-side selector for the custom-rule step -/

/-- The rule the specification says the custom-rule step picks, stated
directly on the original list: among matching rules, the one with the
highest `priority`, ties resolved in favour of the earlier list position
(a later candidate replaces the current one only with strictly greater
priority). -/
def bestPick (p : Rule → Bool) : List Rule → Option Rule
  | [] => none
  | r :: rest =>
    if p r then
      match bestPick p rest with
      | some b => if b.priority > r.priority then some b else some r
      | none => some r
    else bestPick p rest

/-- `bestPick` restricted to enabled rules, matching the claim: only rules
with `isEnabled = true` are considered. -/
def bestEnabledMatch (p : Rule → Bool) (rules : List Rule) : Option Rule :=
  bestPick p (rules.filter (fun r => r.isEnabled))

/-! ## Concrete instances used by the closed statements below -/

/-- A risk score carrying the `high_risk_country` factor (witness data). -/
def rsHighRisk : RiskScore :=
  { id := "risk-1", evaluationId := "eval-1", sessionId := "session-1"
  , merchantId := "merchant-1", visitorId := "visitor-1", score := 0
  , isFraud := false, riskFactors := ["high_risk_country"], timestamp := 0 }

/-- The default custom rule seeded by `setupDefaultMerchantRules`. -/
def highRiskCountryRule : Rule :=
  { id := "high-risk-country"
  , name := "High Risk Country"
  , description := some "Transactions from high-risk countries require manual review"
  , conditions := [{ field := "riskFactors", operator := Op.contains
                   , value := Value.vstr "high_risk_country" }]
  , action := Action.review
  , priority := 100
  , isEnabled := true }

/-- Merchant rules carrying the single default custom rule (witness data). -/
def mrWithRule : MerchantRules :=
  { merchantId := "merchant-1", riskThreshold := 7/10, highRiskThreshold := 9/10
  , automaticReject := true, manualReviewThreshold := none
  , customRules := some [highRiskCountryRule], updatedAt := 0 }

/-- A risk score with the integer pipeline score `89` (the evaluator clamps
its scores into the integer range `[0, 100]`). -/
def rs89 : RiskScore :=
  { id := "risk-89", evaluationId := "eval-89", sessionId := "session-89"
  , merchantId := "merchant-89", visitorId := "visitor-89", score := 89
  , isFraud := true, riskFactors := [], timestamp := 0 }

/-- A risk score with the integer score `95` (witness data for the
threshold ladder). -/
def rs95 : RiskScore :=
  { id := "risk-95", evaluationId := "eval-95", sessionId := "session-95"
  , merchantId := "merchant-95", visitorId := "visitor-95", score := 95
  , isFraud := true, riskFactors := [], timestamp := 0 }

/-- A risk score with the integer score `50` (counterexample data). -/
def rs50 : RiskScore :=
  { id := "risk-50", evaluationId := "eval-50", sessionId := "session-50"
  , merchantId := "merchant-50", visitorId := "visitor-50", score := 50
  , isFraud := false, riskFactors := [], timestamp := 0 }

/-- Merchant rules with integer thresholds `70`/`90` and no custom rules
(witness data; nothing stops a cached record from using this scale). -/
def intThresholdRules : MerchantRules :=
  { merchantId := "merchant-95", riskThreshold := 70, highRiskThreshold := 90
  , automaticReject := true, manualReviewThreshold := none
  , customRules := none, updatedAt := 0 }

/-- Merchant rules whose `riskThreshold` exceeds their
`highRiskThreshold` — the data model does not forbid this ordering
(counterexample data). -/
def invertedMerchantRules : MerchantRules :=
  { merchantId := "merchant-50", riskThreshold := 90, highRiskThreshold := 10
  , automaticReject := true, manualReviewThreshold := none
  , customRules := none, updatedAt := 0 }

/-- A condition whose `neq` operator is applied to a missing field. -/
def undefinedNeqCondition : RuleCondition :=
  { field := "missing", operator := Op.neq, value := Value.vnum 5 }

/-- A record whose `riskFactors` field is an array (counterexample data). -/
def arrayFieldRecord : Value :=
  Value.vobj [("riskFactors", Value.varr [Value.vstr "high_risk_country"])]

/-- A `contains` condition against the array-valued `riskFactors` field. -/
def arrayContainsCondition : RuleCondition :=
  { field := "riskFactors", operator := Op.contains
  , value := Value.vstr "high_risk_country" }

/-- A record with a string `sessionId` field (witness data). -/
def sessionIdRecord : Value :=
  Value.vobj [("sessionId", Value.vstr "session-1")]

/-- An `eq` condition on the string `sessionId` field (witness data). -/
def sessionIdEqCondition : RuleCondition :=
  { field := "sessionId", operator := Op.eq, value := Value.vstr "session-1" }

/-- First velocity evaluation: merchant `m1`, session `s1`. -/
def velocityEvent1 : EnrichedEvent :=
  { sessionId := "s1", merchantId := "m1", ipAddress := "10.0.0.1"
  , evaluationId := none
  , fingerprintData := { visitorId := "d1", confidence := some 1, incognito := some false }
  , geoData := none, velocityData := none }

/-- Second velocity evaluation: same merchant `m1`, different session `s2`,
different IP and device. -/
def velocityEvent2 : EnrichedEvent :=
  { sessionId := "s2", merchantId := "m1", ipAddress := "10.0.0.2"
  , evaluationId := none
  , fingerprintData := { visitorId := "d2", confidence := some 1, incognito := some false }
  , geoData := none, velocityData := none }

/-- A well-formed risk score for the consumer counterexample. -/
def consumedRiskScore : RiskScore :=
  { id := "risk-123", evaluationId := "eval-123", sessionId := "session-123"
  , merchantId := "merchant-123", visitorId := "visitor-123", score := 7/10
  , isFraud := false, riskFactors := [], timestamp := 0 }

/-- A message that parses fine but whose decision store fails (a repository
failure during decisioning). -/
def failingMessage : KMessage :=
  { parsed := some consumedRiskScore
  , storeOutcome := Except.error ("Storage error")
  , publishOutcome := Except.ok () }

/-- Initial consumer state holding only the failing message. -/
def initialConsumerState : ConsumerState :=
  { pending := [failingMessage], committed := 0, running := true }

/-! ## Theorems -/

/-- C1 (refuted, code bug): the claim states the integer bands
`critical ≥ 90 > high ≥ 70 > medium ≥ 40 > low` with 89 mapping to high,
39 to low and 69 to medium.  `getRiskLevel` compares the very same score
that the threshold ladder of `makeDecision` receives (the evaluator clamps
it into the integer range `[0, 100]`) against the literals `0.9`, `0.7`
and `0.4`, so 89, 39 and 69 — and every pipeline score of at least 1 —
all map to `critical`. -/
theorem getRiskLevel_unit_scale_bug :
    (createDecision rs89 ("d-1") Action.review [] 0).riskLevel = RiskLevel.critical ∧
    getRiskLevel 89 = RiskLevel.critical ∧
    getRiskLevel 39 = RiskLevel.critical ∧
    getRiskLevel 69 = RiskLevel.critical ∧
    getRiskLevel 90 = RiskLevel.critical ∧
    getRiskLevel 1 = RiskLevel.critical ∧
    getRiskLevel 0 = RiskLevel.low := by
  refine ⟨?_, ?_, ?_, ?_, ?_, ?_, ?_⟩ <;>
    norm_num [createDecision, rs89, getRiskLevel]

/-- C2 (refuted, code bug): for a merchant with neither a merchant-specific
nor a `default` cache record, `getMerchantRules` returns the hardcoded
baseline with `automaticReject = true` as claimed, but its thresholds are
the config defaults `0.7` and `0.9` (unit scale), not the claimed `70` and
`90` (the scale used by the repository docs and by the evaluator, which
produces integer scores in `[0, 100]`). -/
theorem getMerchantRules_baseline_unit_scale (now : ℤ) (merchantId : String) :
    (getMerchantRules (fun _ => none) now merchantId).riskThreshold = 7/10 ∧
    (getMerchantRules (fun _ => none) now merchantId).highRiskThreshold = 9/10 ∧
    (getMerchantRules (fun _ => none) now merchantId).automaticReject = true ∧
    (getMerchantRules (fun _ => none) now merchantId).riskThreshold ≠ 70 ∧
    (getMerchantRules (fun _ => none) now merchantId).highRiskThreshold ≠ 90 := by
  refine ⟨rfl, rfl, rfl, ?_, ?_⟩ <;>
    norm_num [getMerchantRules, defaultRiskThreshold, highRiskThreshold]

/-- C7 (confirmed): when the try block of `calculateRiskScore` fails (the
publish step is the failing operation in this embedding; the settings and
rules lookups absorb their own errors in the source), the function does not
propagate the error and returns the fallback risk score: score `0`, risk
factors exactly `[calculation_error]`, and `isFraud = false`. -/
theorem calculateRiskScore_error_fail_safe (ev : EnrichedEvent)
    (settings : MerchantSettings) (rules : List ERule) (uuid1 uuid2 : String)
    (now : ℤ) (e : String) :
    calculateRiskScore ev settings rules uuid1 uuid2 now (Except.error e) =
      riskScoreFallback ev uuid1 uuid2 now ∧
    (calculateRiskScore ev settings rules uuid1 uuid2 now (Except.error e)).score = 0 ∧
    (calculateRiskScore ev settings rules uuid1 uuid2 now (Except.error e)).riskFactors =
      ["calculation_error"] ∧
    (calculateRiskScore ev settings rules uuid1 uuid2 now (Except.error e)).isFraud = false :=
  ⟨rfl, rfl, rfl, rfl⟩

/-- C6 counterexample: on a field whose extraction yields `undefined`, the
`neq` operator of `matchesCondition` returns `true` (since
`undefined !== 5`), while the claim states that every operator except
`not_contains`/`not_in` returns `false` there. -/
theorem matchesCondition_neq_undefined_cex :
    getFieldValue (Value.vobj []) ("missing") = none ∧
    matchesCondition (Value.vobj []) undefinedNeqCondition = true :=
  ⟨rfl, rfl⟩

/-- C6 (amended): on a field whose dot-path extraction yields `undefined`,
`matchesCondition` returns `false` for `eq`, `gt`, `gte`, `lt`, `lte`,
`contains` and `in`, and `true` for `neq`, `not_contains` and `not_in`
(the claim placed `neq` in the false group). -/
theorem matchesCondition_undefined_semantics (record : Value) (c : RuleCondition)
    (h : getFieldValue record c.field = none) :
    matchesCondition record c =
      (c.operator == Op.neq || c.operator == Op.not_contains || c.operator == Op.not_in) := by
  have hm : matchesCondition record c = matchesConditionOp none c.operator c.value := by
    unfold matchesCondition
    rw [h]
  rw [hm]
  cases c.operator
  all_goals first
    | rfl
    | (cases c.value <;> rfl)

/-- C6 witness: the amended statement applied to the concrete undefined
`neq` condition. -/
theorem matchesCondition_undefined_semantics_witness :
    matchesCondition (Value.vobj []) undefinedNeqCondition =
      (undefinedNeqCondition.operator == Op.neq ||
        undefinedNeqCondition.operator == Op.not_contains ||
        undefinedNeqCondition.operator == Op.not_in) ∧
    matchesCondition (Value.vobj []) undefinedNeqCondition = true :=
  ⟨matchesCondition_undefined_semantics (Value.vobj []) undefinedNeqCondition rfl, rfl⟩

/-- C10 counterexample: on an array-valued field, `contains` matches in the
decisioner (`Array.includes`) but not in the evaluator (whose `contains`
only handles strings), so the two per-condition checks disagree. -/
theorem contains_array_disagreement_cex :
    matchesCondition arrayFieldRecord arrayContainsCondition = true ∧
    evalCondition arrayFieldRecord arrayContainsCondition = false :=
  ⟨rfl, rfl⟩

/-- C10 (amended): the decisioner and evaluator per-condition checks agree
whenever the two extractions coincide and the operator is one of `eq`,
`neq`, `gt`, `gte`, `lt`, `lte`, `in`, or is `contains`/`not_contains` on a
string-valued field, or is `not_in` with an array condition value; they are
not equal in general (array-valued `contains`/`not_contains`,
`not_contains` on undefined or non-string fields, `not_in` with a non-array
value, and paths whose extraction differs). -/
theorem condition_checks_agree (record : Value) (c : RuleCondition)
    (hfv : getFieldValue record c.field = getNestedValue record c.field)
    (hop : (c.operator = Op.eq ∨ c.operator = Op.neq ∨ c.operator = Op.gt ∨
              c.operator = Op.gte ∨ c.operator = Op.lt ∨ c.operator = Op.lte ∨
              c.operator = Op.opIn) ∨
           ((c.operator = Op.contains ∨ c.operator = Op.not_contains) ∧
              ∃ s, getFieldValue record c.field = some (Value.vstr s)) ∨
           (c.operator = Op.not_in ∧ ∃ xs, c.value = Value.varr xs)) :
    matchesCondition record c = evalCondition record c := by
  unfold matchesCondition evalCondition
  rw [← hfv]
  rcases hop with h7 | ⟨hc, s, hs⟩ | ⟨hn, xs, hx⟩
  · rcases h7 with h | h | h | h | h | h | h <;> rw [h] <;> rfl
  · rcases hc with h | h <;> rw [h, hs] <;> rfl
  · rw [hn, hx]
    rfl

/-- C10 witness: the agreement applied to an `eq` condition on a defined
string field, where both checks return `true`. -/
theorem condition_checks_agree_witness :
    matchesCondition sessionIdRecord sessionIdEqCondition =
      evalCondition sessionIdRecord sessionIdEqCondition ∧
    matchesCondition sessionIdRecord sessionIdEqCondition = true :=
  ⟨condition_checks_agree sessionIdRecord sessionIdEqCondition rfl (Or.inl (Or.inl rfl)), rfl⟩

/-- C8 (refuted, code bug): the first velocity counter is keyed by
`velocity:merchant:MERCHANTID:sessions` — the session id, although
destructured by the source, does not occur in the key — so two evaluations
of the same merchant with different session ids share one counter: the
second returns count `2`, while independent `(merchantId, sessionId)`
counters (as the claim states) would both return `1`. -/
theorem session_velocity_key_ignores_session :
    velocityEvent1.sessionId ≠ velocityEvent2.sessionId ∧
    merchantSessionKey velocityEvent1 = merchantSessionKey velocityEvent2 ∧
    (getVelocityData velocityEvent1 0 RedisState.empty).1.sessionCount24h = some 1 ∧
    (getVelocityData velocityEvent2 0
        (getVelocityData velocityEvent1 0 RedisState.empty).2).1.sessionCount24h = some 2 := by
  exact ⟨by decide, rfl, rfl, rfl⟩

/-- Helper for C9: `processMessages` resolves on every batch — each loop
iteration wraps its work in a try/catch, and `processRiskScore` itself
catches decisioning errors, so the handler never rejects. -/
theorem processMessages_never_fails :
    ∀ batch : List KMessage, processMessages batch = Except.ok ()
  | [] => rfl
  | _ :: rest => processMessages_never_fails rest

/-- C9 counterexample: from the initial (hence reachable) consumer state
holding one message whose decision store fails, `pollStep` still commits
the offset (committed advances to `1`) and drops the message from the
pending list, so it is never redelivered — against the claim that a batch
with a failed message is never committed. -/
theorem committed_despite_failed_message_cex :
    ConsumerReachable initialConsumerState initialConsumerState ∧
    (processRiskScoreTry failingMessage).isOk = false ∧
    (pollStep initialConsumerState).committed = 1 ∧
    (pollStep initialConsumerState).pending = [] :=
  ⟨ConsumerReachable.refl, rfl, rfl, rfl⟩

/-- C9 (amended): in every consumer state, a nonempty batch is always
committed after `processMessages` resolves — and it always resolves, since
per-message parse and decisioning errors are caught inside
`processMessages` and `processRiskScore`; failed messages are therefore
committed too (not redelivered), and the loop keeps running. -/
theorem pollStep_commits_regardless (s : ConsumerState)
    (hrun : s.running = true) (hne : s.pending ≠ []) :
    processMessages (s.pending.take batchSize) = Except.ok () ∧
    (pollStep s).committed = s.committed + (s.pending.take batchSize).length ∧
    (pollStep s).running = true ∧
    (pollStep s).pending = s.pending.drop batchSize := by
  have hok := processMessages_never_fails (s.pending.take batchSize)
  have hbatch : (s.pending.take batchSize).isEmpty = false := by
    cases hp : s.pending with
    | nil => exact absurd hp hne
    | cons a l => simp [batchSize]
  unfold pollStep
  rw [if_neg (by simp [hrun]), if_neg (by simp [hbatch]), hok]
  exact ⟨rfl, rfl, hrun, rfl⟩

/-- C9 witness: the amended statement applied to the initial state with the
failing message. -/
theorem pollStep_commits_regardless_witness :
    initialConsumerState.running = true ∧
    initialConsumerState.pending ≠ [] ∧
    (pollStep initialConsumerState).committed =
      initialConsumerState.committed +
        (initialConsumerState.pending.take batchSize).length := by
  have h := pollStep_commits_regardless initialConsumerState rfl (by simp [initialConsumerState])
  exact ⟨rfl, by simp [initialConsumerState], h.2.1⟩

/-- Helper for C4: membership in an insertion. -/
theorem mem_insertDesc {z x : Rule} :
    ∀ {t : List Rule}, z ∈ insertDesc x t ↔ z = x ∨ z ∈ t
  | [] => by simp [insertDesc]
  | y :: ys => by
    rw [insertDesc]
    by_cases h : y.priority ≤ x.priority
    · rw [if_pos h]
      simp [List.mem_cons]
    · rw [if_neg h]
      simp only [List.mem_cons, mem_insertDesc (t := ys)]
      tauto

/-- Helper for C4: `insertDesc` preserves descending sortedness. -/
theorem pairwise_insertDesc {x : Rule} :
    ∀ {t : List Rule}, t.Pairwise (fun a b => b.priority ≤ a.priority) →
      (insertDesc x t).Pairwise (fun a b => b.priority ≤ a.priority)
  | [], _ => by simp [insertDesc]
  | y :: ys, ht => by
    rcases List.pairwise_cons.mp ht with ⟨hy, hys⟩
    rw [insertDesc]
    by_cases h : y.priority ≤ x.priority
    · rw [if_pos h]
      refine List.pairwise_cons.mpr ⟨?_, ht⟩
      intro z hz
      rcases List.mem_cons.mp hz with rfl | hz
      · exact h
      · exact le_trans (hy z hz) h
    · rw [if_neg h]
      refine List.pairwise_cons.mpr ⟨?_, pairwise_insertDesc hys⟩
      intro z hz
      rcases mem_insertDesc.mp hz with rfl | hz
      · exact le_of_lt (lt_of_not_le h)
      · exact hy z hz

/-- Helper for C4: `sortDesc` produces a descending-priority list. -/
theorem pairwise_sortDesc :
    ∀ l : List Rule, (sortDesc l).Pairwise (fun a b => b.priority ≤ a.priority)
  | [] => List.Pairwise.nil
  | _ :: xs => pairwise_insertDesc (pairwise_sortDesc xs)

/-- Helper for C4: the first match of an insertion into a sorted list, in
terms of the first match of the list. -/
theorem find?_insertDesc (x : Rule) (p : Rule → Bool) (t : List Rule)
    (ht : t.Pairwise (fun a b => b.priority ≤ a.priority)) :
    (insertDesc x t).find? p =
      (if p x then
        match t.find? p with
        | some b => if b.priority ≤ x.priority then some x else some b
        | none => some x
      else t.find? p) := by
  induction t with
  | nil =>
    by_cases hp : p x <;> simp [insertDesc, hp]
  | cons y ys ih =>
    rcases List.pairwise_cons.mp ht with ⟨hy, hys⟩
    rw [insertDesc]
    by_cases hxy : y.priority ≤ x.priority
    · rw [if_pos hxy]
      by_cases hp : p x
      · rw [List.find?_cons_of_pos _ hp, if_pos hp]
        cases hfind : (y :: ys).find? p with
        | none => rfl
        | some b =>
          have hb : b ∈ y :: ys := List.mem_of_find?_eq_some hfind
          have hble : b.priority ≤ x.priority := by
            rcases List.mem_cons.mp hb with rfl | hbm
            · exact hxy
            · exact le_trans (hy b hbm) hxy
          dsimp only
          rw [if_pos hble]
      · rw [List.find?_cons_of_neg _ hp, if_neg hp]
    · rw [if_neg hxy]
      by_cases hpy : p y
      · rw [List.find?_cons_of_pos _ hpy, List.find?_cons_of_pos _ hpy]
        by_cases hp : p x
        · rw [if_pos hp]
          dsimp only
          rw [if_neg hxy]
        · rw [if_neg hp]
      · rw [List.find?_cons_of_neg _ hpy, List.find?_cons_of_neg _ hpy]
        exact ih hys

/-- Helper for C4: the first match of the stable descending sort is the
best pick of the original list (maximal priority, earliest position on
ties). -/
theorem find?_sortDesc (p : Rule → Bool) :
    ∀ l : List Rule, (sortDesc l).find? p = bestPick p l
  | [] => rfl
  | x :: xs => by
    have ih := find?_sortDesc p xs
    show (insertDesc x (sortDesc xs)).find? p = bestPick p (x :: xs)
    rw [find?_insertDesc x p _ (pairwise_sortDesc xs), ih]
    simp only [bestPick]
    by_cases hp : p x
    · rw [if_pos hp, if_pos hp]
      cases hb : bestPick p xs with
      | none => rfl
      | some b =>
        dsimp only
        by_cases hgt : b.priority > x.priority
        · rw [if_pos hgt, if_neg (not_le.mpr hgt)]
        · rw [if_neg hgt, if_pos (le_of_not_lt hgt)]
    · rw [if_neg hp, if_neg hp]

/-- C4 (confirmed): `applyCustomRules` considers only enabled rules and
returns the action (and reason) of the matching rule with the highest
priority, ties resolved in favour of the earlier position in the original
list (`bestEnabledMatch` states this directly, without any sort); and once
a custom rule matches, `makeDecision` returns exactly that rule's decision
with the rule reason as the only reasoning entry — no threshold logic or
threshold-reasoning string contributes. -/
theorem applyCustomRules_selects_best (rs : RiskScore) (mr : MerchantRules)
    (cache : String → Option MerchantRules) (now : ℤ) (decisionId : String) :
    applyCustomRules rs mr =
      (bestEnabledMatch (fun r => matchesRule rs r) (mr.customRules.getD [])).map
        (fun r => { decision := r.action, reason := ruleReason r }) ∧
    (∀ res, applyCustomRules rs (getMerchantRules cache now rs.merchantId) = some res →
        makeDecision cache now rs decisionId =
          createDecision rs decisionId res.decision [res.reason] now) := by
  constructor
  · unfold applyCustomRules bestEnabledMatch
    cases hcr : mr.customRules with
    | none => rfl
    | some rules =>
      simp only [Option.getD_some]
      by_cases hlen : rules.length = 0
      · rw [if_pos hlen]
        have hnil : rules = [] := List.length_eq_zero.mp hlen
        subst hnil
        rfl
      · rw [if_neg hlen, find?_sortDesc]
        cases bestPick (fun r => matchesRule rs r) (rules.filter (fun r => r.isEnabled)) <;> rfl
  · intro res hres
    simp only [makeDecision]
    rw [hres]

/-- C4 witness: the characterization and the short-circuit applied to the
default `high-risk-country` rule matching a risk score that carries the
`high_risk_country` factor. -/
theorem applyCustomRules_selects_best_witness :
    applyCustomRules rsHighRisk mrWithRule =
      some { decision := Action.review, reason := ruleReason highRiskCountryRule } ∧
    makeDecision (fun _ => some mrWithRule) 0 rsHighRisk ("d-1") =
      createDecision rsHighRisk ("d-1") Action.review [ruleReason highRiskCountryRule] 0 := by
  have h := applyCustomRules_selects_best rsHighRisk mrWithRule
    (fun _ => some mrWithRule) 0 ("d-1")
  constructor
  · rw [h.1]
    rfl
  · exact h.2 { decision := Action.review, reason := ruleReason highRiskCountryRule } rfl

/-- C5 counterexample: the claim reads as four independent conditionals,
but nothing in the data model orders the two thresholds; with
`riskThreshold = 90 > 10 = highRiskThreshold` and score `50`, the score is
below `riskThreshold` yet the decision is `reject` (the high-risk branch
fires first), not `approve` as the fourth conditional of the claim
demands. -/
theorem threshold_ladder_cex :
    rs50.score < (getMerchantRules (fun _ => some invertedMerchantRules) 0
      rs50.merchantId).riskThreshold ∧
    applyCustomRules rs50 (getMerchantRules (fun _ => some invertedMerchantRules) 0
      rs50.merchantId) = none ∧
    (makeDecision (fun _ => some invertedMerchantRules) 0 rs50 ("d-1")).decision =
      Action.reject := by
  refine ⟨by decide, rfl, ?_⟩
  simp only [makeDecision, applyCustomRules, getMerchantRules, invertedMerchantRules, rs50]
  norm_num [createDecision]

/-- C5 (amended): when no enabled custom rule matches, the threshold
ladder gives: `reject` for score ≥ `highRiskThreshold` with
`automaticReject`, `review` for score ≥ `highRiskThreshold` without
`automaticReject`, `review` for `riskThreshold` ≤ score <
`highRiskThreshold`, and `approve` for a score below both thresholds (the
claim lacked the score < `highRiskThreshold` qualification in the approve
case, which matters only when the thresholds are inversely ordered). -/
theorem makeDecision_threshold_ladder (cache : String → Option MerchantRules)
    (now : ℤ) (rs : RiskScore) (decisionId : String)
    (hnone : applyCustomRules rs (getMerchantRules cache now rs.merchantId) = none) :
    (rs.score ≥ (getMerchantRules cache now rs.merchantId).highRiskThreshold ∧
        (getMerchantRules cache now rs.merchantId).automaticReject = true →
        (makeDecision cache now rs decisionId).decision = Action.reject) ∧
    (rs.score ≥ (getMerchantRules cache now rs.merchantId).highRiskThreshold ∧
        (getMerchantRules cache now rs.merchantId).automaticReject = false →
        (makeDecision cache now rs decisionId).decision = Action.review) ∧
    ((getMerchantRules cache now rs.merchantId).riskThreshold ≤ rs.score ∧
        rs.score < (getMerchantRules cache now rs.merchantId).highRiskThreshold →
        (makeDecision cache now rs decisionId).decision = Action.review) ∧
    (rs.score < (getMerchantRules cache now rs.merchantId).riskThreshold ∧
        rs.score < (getMerchantRules cache now rs.merchantId).highRiskThreshold →
        (makeDecision cache now rs decisionId).decision = Action.approve) := by
  simp only [makeDecision, hnone, createDecision]
  refine ⟨?_, ?_, ?_, ?_⟩
  · rintro ⟨h1, h2⟩
    rw [if_pos h1, if_pos h2]
  · rintro ⟨h1, h2⟩
    rw [if_pos h1, if_neg (by simp [h2])]
  · rintro ⟨h1, h2⟩
    rw [if_neg (not_le.mpr h2), if_pos h1]
  · rintro ⟨h1, h2⟩
    rw [if_neg (not_le.mpr h2), if_neg (not_le.mpr h1)]

/-- C5 witness: the ladder applied to score `95` against cached integer
thresholds `70`/`90` with `automaticReject = true`, giving `reject`. -/
theorem makeDecision_threshold_ladder_witness :
    applyCustomRules rs95 (getMerchantRules (fun _ => some intThresholdRules) 0
      rs95.merchantId) = none ∧
    (makeDecision (fun _ => some intThresholdRules) 0 rs95 ("d-1")).decision =
      Action.reject := by
  have h := makeDecision_threshold_ladder (fun _ => some intThresholdRules) 0 rs95 ("d-1") rfl
  exact ⟨rfl, h.1 ⟨by decide, rfl⟩⟩

/-- Helper for C3: the confidence step adds exactly its contribution. -/
theorem stepConfidence_spec (fp : FingerprintData) (acc : RiskAcc) :
    stepConfidence fp acc =
      (acc.1 + ((confContrib fp).map Prod.fst).sum,
       acc.2 ++ (confContrib fp).map Prod.snd) := by
  unfold stepConfidence confContrib
  cases fp.confidence with
  | none => simp
  | some c =>
    dsimp only
    by_cases h1 : c < 3/10
    · rw [if_pos h1, if_pos h1]
      simp
    · rw [if_neg h1, if_neg h1]
      by_cases h2 : c < 7/10
      · rw [if_pos h2, if_pos h2]
        simp
      · rw [if_neg h2, if_neg h2]
        simp

/-- Helper for C3: the incognito step adds exactly its contribution
(JS truthiness of the optional boolean coincides with equality to
`some true`). -/
theorem stepIncognito_spec (fp : FingerprintData) (acc : RiskAcc) :
    stepIncognito fp acc =
      (acc.1 + ((incogContrib fp).map Prod.fst).sum,
       acc.2 ++ (incogContrib fp).map Prod.snd) := by
  unfold stepIncognito incogContrib
  cases fp.incognito with
  | none => simp [jsTruthyBool]
  | some b => cases b <;> simp [jsTruthyBool]

/-- Helper for C3: the geo step adds exactly its contribution (the
truthiness guard on the country string is redundant given membership in
the high-risk list, whose members are nonempty strings). -/
theorem stepGeo_spec (ev : EnrichedEvent) (acc : RiskAcc) :
    stepGeo ev acc =
      (acc.1 + ((geoContrib ev).map Prod.fst).sum,
       acc.2 ++ (geoContrib ev).map Prod.snd) := by
  unfold stepGeo geoContrib
  cases hc : ev.geoData.bind (fun g => g.country) with
  | none => simp [jsTruthyStr]
  | some c =>
    by_cases hce : c = ""
    · subst hce
      simp [jsTruthyStr, highRiskCountries]
    · by_cases hin : c ∈ highRiskCountries <;>
        simp [jsTruthyStr, hce, hin]

/-- Helper for C3: the velocity step adds exactly its two contributions
(the truthiness guards are redundant: a count above the threshold is
nonzero). -/
theorem stepVelocity_spec (ev : EnrichedEvent) (acc : RiskAcc) :
    stepVelocity ev acc =
      (acc.1 + ((sessionVelContrib ev ++ ipVelContrib ev).map Prod.fst).sum,
       acc.2 ++ (sessionVelContrib ev ++ ipVelContrib ev).map Prod.snd) := by
  unfold stepVelocity sessionVelContrib ipVelContrib
  cases ev.velocityData with
  | none => simp
  | some v =>
    obtain ⟨s24, i24, d24, l24⟩ := v
    dsimp only
    cases s24 with
    | none =>
      cases i24 with
      | none => simp [jsTruthyNum]
      | some m =>
        by_cases hm : m > 20
        · have hm0 : m ≠ 0 := ne_of_gt (lt_trans (by norm_num) hm)
          simp [jsTruthyNum, hm, hm0]
        · simp [jsTruthyNum, hm]
    | some n =>
      cases i24 with
      | none =>
        by_cases hn : n > 10
        · have hn0 : n ≠ 0 := ne_of_gt (lt_trans (by norm_num) hn)
          simp [jsTruthyNum, hn, hn0]
        · simp [jsTruthyNum, hn]
      | some m =>
        by_cases hn : n > 10 <;> by_cases hm : m > 20
        · have hn0 : n ≠ 0 := ne_of_gt (lt_trans (by norm_num) hn)
          have hm0 : m ≠ 0 := ne_of_gt (lt_trans (by norm_num) hm)
          simp [jsTruthyNum, hn, hn0, hm, hm0, add_assoc]
        · have hn0 : n ≠ 0 := ne_of_gt (lt_trans (by norm_num) hn)
          simp [jsTruthyNum, hn, hn0, hm]
        · have hm0 : m ≠ 0 := ne_of_gt (lt_trans (by norm_num) hm)
          simp [jsTruthyNum, hn, hm, hm0]
        · simp [jsTruthyNum, hn, hm]

/-- Helper for C3: the rules fold adds exactly the contributions of the
active matching rules, in list order. -/
theorem stepRules_spec (ev : EnrichedEvent) (rules : List ERule) :
    ∀ acc : RiskAcc,
      stepRules rules ev acc =
        (acc.1 + ((rulesContrib rules ev).map Prod.fst).sum,
         acc.2 ++ (rulesContrib rules ev).map Prod.snd) := by
  induction rules with
  | nil => intro acc; simp [stepRules, rulesContrib]
  | cons r rest ih =>
    intro acc
    have hstep : stepRules (r :: rest) ev acc =
        stepRules rest ev
          (if r.isActive && evaluateRule r (eventToValue ev) then
            (acc.1 + r.riskScoreAdjustment, acc.2 ++ ["rule_" ++ r.id])
          else acc) := rfl
    rw [hstep]
    by_cases hr : (r.isActive && evaluateRule r (eventToValue ev)) = true
    · rw [if_pos hr, ih]
      simp [rulesContrib, List.filter_cons, hr, add_assoc]
    · rw [if_neg hr, ih]
      simp [rulesContrib, List.filter_cons, hr]

/-- Helper for C3: the full sequential scoring body computes the sum and
the tag list of the specification contributions. -/
theorem calcScoreFactors_spec (ev : EnrichedEvent) (rules : List ERule) :
    calcScoreFactors ev rules =
      (((specContributions ev rules).map Prod.fst).sum,
       (specContributions ev rules).map Prod.snd) := by
  unfold calcScoreFactors specContributions
  rw [stepRules_spec, stepVelocity_spec, stepGeo_spec, stepIncognito_spec,
    stepConfidence_spec]
  simp [List.sum_append, add_assoc]

/-- C3 (confirmed): the successfully computed risk score is the sum of the
specification contributions clamped to `[0, 100]`, its risk factors are
exactly the contribution tags in order, and `isFraud` holds exactly when
the (clamped) score reaches the merchant `riskThreshold`. -/
theorem calculateRiskScore_additive_model (ev : EnrichedEvent)
    (settings : MerchantSettings) (rules : List ERule) (uuid1 uuid2 : String)
    (now : ℤ) :
    (calculateRiskScore ev settings rules uuid1 uuid2 now (Except.ok ())).score =
      clampScore (((specContributions ev rules).map Prod.fst).sum) ∧
    (calculateRiskScore ev settings rules uuid1 uuid2 now (Except.ok ())).riskFactors =
      (specContributions ev rules).map Prod.snd ∧
    0 ≤ (calculateRiskScore ev settings rules uuid1 uuid2 now (Except.ok ())).score ∧
    (calculateRiskScore ev settings rules uuid1 uuid2 now (Except.ok ())).score ≤ 100 ∧
    (calculateRiskScore ev settings rules uuid1 uuid2 now (Except.ok ())).isFraud =
      decide ((calculateRiskScore ev settings rules uuid1 uuid2 now
        (Except.ok ())).score ≥ settings.riskThreshold) := by
  have hc := calcScoreFactors_spec ev rules
  refine ⟨?_, ?_, ?_, ?_, rfl⟩
  · show clampScore (calcScoreFactors ev rules).1 = _
    rw [hc]
  · show (calcScoreFactors ev rules).2 = _
    rw [hc]
  · exact le_max_left 0 _
  · exact max_le (by norm_num) (min_le_left _ _)

end FS
